import Mathlib

/-
Verification of the EAV telemetry pipeline: the crash-event detector
(src/crash_detection.py) and the mass estimator (src/mass_estimation.py).

Modelling conventions:
* Times, magnitudes, angles and thresholds are rationals (the Python floats
  behave exactly at every input used here); values produced by transcendental
  functions (sin, cos, tan, arctan, sqrt) live in ℝ.
* Pandas NaN (undefined) cells are modelled as `none : Option _`.
* Python `int()` on a non-negative value is truncation toward zero, i.e. the
  floor; it is modelled with `Int.floor`/`Int.toNat`.
-/

namespace EAV

/-! ## Constants from src/mass_estimation.py -/

def MOTOR_FORCE : ℚ := 556.65

def ROLLING_RESISTANCE_COEFFICIENT : ℚ := 0.12

def GRAVITY : ℚ := 9.81

def MIN_ACCELERATION : ℚ := 0.2

def MIN_WINDOW_SIZE : ℕ := 5

def MAX_WINDOW_SIZE : ℕ := 50

def TARGET_WINDOW_RATIO : ℚ := 0.1

def MIN_MOVING_SPEED : ℚ := 0.5

/-! ## Window-size policies (src/mass_estimation.py lines 20-50) -/

/-- calculate_optimal_window (lines 45-50).  `int(TARGET_WINDOW_RATIO *
data_length)` truncates toward zero; the argument is non-negative, so this is
the floor. -/
def calculate_optimal_window (data_length : ℕ) : ℕ :=
  let suggested :=
    max MIN_WINDOW_SIZE
      (min MAX_WINDOW_SIZE (Int.toNat (Int.floor ( TARGET_WINDOW_RATIO * (data_length : ℚ)))))
  if suggested % 2 = 0 then suggested + 1 else suggested

/-- numpy median: midpoint of the middle elements of the sorted list (lines
29-30).  Only called on non-empty lists; the 0 default is unreachable. -/
def npMedian (l : List ℚ) : ℚ :=
  let s := l.mergeSort (· ≤ ·)
  if l.length % 2 = 1 then s.getD (l.length / 2) 0
  else (s.getD (l.length / 2 - 1) 0 + s.getD (l.length / 2) 0) / 2

/-- numpy population variance (`np.std(x)^2`, ddof = 0).  The source compares
`np.std(time_diffs) > 2*median_interval`; both sides being non-negative in the
branch where it is evaluated, the comparison is equivalent to
`variance > 4*median_interval^2`, which avoids the irrational square root. -/
def npVariance (l : List ℚ) : ℚ :=
  let μ := l.sum / l.length
  (l.map (fun x => (x - μ) ^ 2)).sum / l.length

/-- calculate_time_aware_window (lines 20-43).  `np.diff` is the list of
consecutive differences; `int(1.0 / median_interval)` is the floor since the
branch guarantees `median_interval > 0`.  The irregularity test
`median_interval <= 0 or np.std(time_diffs) > 2*median_interval` is expressed
with the variance (see `npVariance`). -/
def calculate_time_aware_window (time_series : List ℚ) : ℕ :=
  if time_series.length < 2 then MIN_WINDOW_SIZE
  else
    let time_diffs := (time_series.zip time_series.tail).map (fun p => p.2 - p.1)
    let median_interval := npMedian time_diffs
    if median_interval ≤ 0 ∨ 4 * median_interval ^ 2 < npVariance time_diffs then
      calculate_optimal_window time_series.length
    else
      let target_points := Int.toNat (Int.floor (1 / median_interval))
      let target_points' := max MIN_WINDOW_SIZE (min MAX_WINDOW_SIZE target_points)
      if target_points' % 2 = 0 then target_points' + 1 else target_points'

/-- Point-based window policy as the spec sentence for C3 words it, with
`round` (rounding to nearest): `clamp(round(ratio * N), MIN, MAX)`, then +1 if
even. -/
def optimal_window_spec_round (n : ℕ) : ℕ :=
  let clamped :=
    min MAX_WINDOW_SIZE
      (max MIN_WINDOW_SIZE (Int.toNat (round ( TARGET_WINDOW_RATIO * (n : ℚ)))))
  if clamped % 2 = 0 then clamped + 1 else clamped

/-- Point-based window policy with the rounding replaced by the floor
(truncation), which is what `int()` actually does: the amended form of C3. -/
def optimal_window_spec_floor (n : ℕ) : ℕ :=
  let clamped :=
    min MAX_WINDOW_SIZE
      (max MIN_WINDOW_SIZE (Nat.floor ( TARGET_WINDOW_RATIO * (n : ℚ))))
  if clamped % 2 = 0 then clamped + 1 else clamped

lemma clamp_odd_props (x : ℕ) :
    MIN_WINDOW_SIZE ≤
        (if max MIN_WINDOW_SIZE (min MAX_WINDOW_SIZE x) % 2 = 0 then
          max MIN_WINDOW_SIZE (min MAX_WINDOW_SIZE x) + 1
        else max MIN_WINDOW_SIZE (min MAX_WINDOW_SIZE x)) ∧
      (if max MIN_WINDOW_SIZE (min MAX_WINDOW_SIZE x) % 2 = 0 then
          max MIN_WINDOW_SIZE (min MAX_WINDOW_SIZE x) + 1
        else max MIN_WINDOW_SIZE (min MAX_WINDOW_SIZE x)) ≤ MAX_WINDOW_SIZE + 1 ∧
      (if max MIN_WINDOW_SIZE (min MAX_WINDOW_SIZE x) % 2 = 0 then
          max MIN_WINDOW_SIZE (min MAX_WINDOW_SIZE x) + 1
        else max MIN_WINDOW_SIZE (min MAX_WINDOW_SIZE x)) % 2 = 1 := by
  simp only [MIN_WINDOW_SIZE, MAX_WINDOW_SIZE]
  by_cases h : max 5 (min 50 x) % 2 = 0 <;> simp only [h, if_true, if_false] <;> omega

lemma optimal_window_props (n : ℕ) :
    MIN_WINDOW_SIZE ≤ calculate_optimal_window n ∧
      calculate_optimal_window n ≤ MAX_WINDOW_SIZE + 1 ∧
      calculate_optimal_window n % 2 = 1 := by
  unfold calculate_optimal_window
  exact clamp_odd_props _

lemma time_aware_window_props (ts : List ℚ) :
    MIN_WINDOW_SIZE ≤ calculate_time_aware_window ts ∧
      calculate_time_aware_window ts ≤ MAX_WINDOW_SIZE + 1 ∧
      calculate_time_aware_window ts % 2 = 1 := by
  unfold calculate_time_aware_window
  by_cases h1 : ts.length < 2
  · simp only [h1, if_true]
    refine ⟨le_refl _, ?_, ?_⟩ <;> simp [MIN_WINDOW_SIZE, MAX_WINDOW_SIZE]
  · simp only [h1, if_false]
    by_cases h2 :
        npMedian ((ts.zip ts.tail).map (fun p => p.2 - p.1)) ≤ 0 ∨
          4 * npMedian ((ts.zip ts.tail).map (fun p => p.2 - p.1)) ^ 2 <
            npVariance ((ts.zip ts.tail).map (fun p => p.2 - p.1))
    · simp only [h2, if_true]
      exact optimal_window_props _
    · simp only [h2, if_false]
      exact clamp_odd_props _

/-- C1: for every data length the point-based window and the time-aware window
lie between `MIN_WINDOW_SIZE` and `MAX_WINDOW_SIZE + 1` (i.e. 5 and 51, not
50: a clamped value of 50 is even, and the final +1 pushes it past the
maximum) and are always odd.  This is the amended form of the claim; the
original upper bound `MAX_WINDOW_SIZE` fails, see `c1_counterexample`. -/
theorem c1_window_bounds :
    (∀ n : ℕ,
        MIN_WINDOW_SIZE ≤ calculate_optimal_window n ∧
          calculate_optimal_window n ≤ MAX_WINDOW_SIZE + 1 ∧
          calculate_optimal_window n % 2 = 1) ∧
      ∀ ts : List ℚ,
        MIN_WINDOW_SIZE ≤ calculate_time_aware_window ts ∧
          calculate_time_aware_window ts ≤ MAX_WINDOW_SIZE + 1 ∧
          calculate_time_aware_window ts % 2 = 1 :=
  ⟨optimal_window_props, time_aware_window_props⟩

/-- C1 counterexample: at data length 500 the point-based policy clamps to 50,
which is even, so the final adjustment returns 51 > MAX_WINDOW_SIZE, refuting
the claimed interval `[MIN_WINDOW_SIZE, MAX_WINDOW_SIZE]`. -/
theorem c1_counterexample :
    calculate_optimal_window 500 = 51 ∧ ¬ calculate_optimal_window 500 ≤ MAX_WINDOW_SIZE := by
  have h : calculate_optimal_window 500 = 51 := by
    unfold calculate_optimal_window
    norm_num [ TARGET_WINDOW_RATIO, MIN_WINDOW_SIZE, MAX_WINDOW_SIZE]
  exact ⟨h, by rw [h]; norm_num [MAX_WINDOW_SIZE]⟩

lemma ratio_floor_eq (n : ℕ) :
    Int.toNat (Int.floor ( TARGET_WINDOW_RATIO * (n : ℚ))) = n / 10 := by
  have h1 : ( TARGET_WINDOW_RATIO * (n : ℚ)) = (n : ℚ) / (10 : ℕ) := by
    simp [ TARGET_WINDOW_RATIO]
    norm_num
    ring
  rw [h1, Int.floor_toNat, Nat.floor_div_nat, Nat.floor_natCast]

/-- C3 amended: the point-based policy equals the spec formula with the
rounding replaced by truncation (floor): `clamp(floor(ratio * N), MIN, MAX)`,
then +1 if the clamped value is even. -/
theorem c3_point_window_formula :
    ∀ n : ℕ, calculate_optimal_window n = optimal_window_spec_floor n := by
  intro n
  unfold calculate_optimal_window optimal_window_spec_floor
  have h1 : Int.toNat (Int.floor ( TARGET_WINDOW_RATIO * (n : ℚ))) = n / 10 :=
    ratio_floor_eq n
  have h2 : Nat.floor ( TARGET_WINDOW_RATIO * (n : ℚ)) = n / 10 := by
    rw [← Int.floor_toNat]
    exact ratio_floor_eq n
  rw [h1, h2]
  have h3 : max MIN_WINDOW_SIZE (min MAX_WINDOW_SIZE (n / 10)) =
      min MAX_WINDOW_SIZE (max MIN_WINDOW_SIZE (n / 10)) := by
    simp only [MIN_WINDOW_SIZE, MAX_WINDOW_SIZE]
    omega
  rw [h3]

/-- C3 counterexample: at N = 56 the code truncates 5.6 to 5 (odd, returned
as-is) while the claimed formula rounds 5.6 to 6 (even, bumped to 7). -/
theorem c3_counterexample :
    calculate_optimal_window 56 = 5 ∧ optimal_window_spec_round 56 = 7 ∧ (5 : ℕ) ≠ 7 := by
  refine ⟨?_, ?_, by norm_num⟩
  · unfold calculate_optimal_window
    norm_num [ TARGET_WINDOW_RATIO, MIN_WINDOW_SIZE, MAX_WINDOW_SIZE]
  · unfold optimal_window_spec_round
    rw [round_eq]
    norm_num [ TARGET_WINDOW_RATIO, MIN_WINDOW_SIZE, MAX_WINDOW_SIZE]
    decide

/-! ## Crash detection (src/crash_detection.py lines 8-48)

The detector consumes `(time, magnitude)` pairs, where `magnitude` is the
normalized acceleration magnitude computed upstream (spec section 4.4 states
the detector contract over exactly such pairs). -/

def SMALL_CRASH_THRESHOLD : ℚ := 10 * 9.81

def LARGE_CRASH_THRESHOLD : ℚ := 30 * 9.81

def COOLDOWN_TIME : ℚ := 2.0

/-- Mutable loop state of detect_crashes: the two event lists being built and
the two refractory timers (lines 34-35). -/
structure DetectState where
  smalls : List (ℚ × ℚ)
  larges : List (ℚ × ℚ)
  lastSmall : ℚ
  lastLarge : ℚ
deriving DecidableEq

/-- One iteration of the detect_crashes loop body (lines 36-47).  A Large
event sets both timers; a Small event requires both timers to have expired and
sets only the small timer. -/
def detectStep (small_threshold large_threshold cooldown_time : ℚ)
    (s : DetectState) (row : ℚ × ℚ) : DetectState :=
  if large_threshold < row.2 then
    if cooldown_time ≤ row.1 - s.lastLarge then
      { smalls := s.smalls, larges := s.larges ++ [row],
        lastSmall := row.1, lastLarge := row.1 }
    else s
  else if small_threshold < row.2 then
    if cooldown_time ≤ row.1 - s.lastSmall ∧ cooldown_time ≤ row.1 - s.lastLarge then
      { smalls := s.smalls ++ [row], larges := s.larges,
        lastSmall := row.1, lastLarge := s.lastLarge }
    else s
  else s

/-- Initial state: both timers at `-cooldown_time`, so the very first sample
can trigger (line 35). -/
def detectInit (cooldown_time : ℚ) : DetectState :=
  { smalls := [], larges := [], lastSmall := -cooldown_time, lastLarge := -cooldown_time }

/-- detect_crashes (lines 32-48): left fold of the loop body, returning
`(small_crashes, large_crashes)`. -/
def detect_crashes (small_threshold large_threshold cooldown_time : ℚ)
    (rows : List (ℚ × ℚ)) : List (ℚ × ℚ) × List (ℚ × ℚ) :=
  let final := rows.foldl (detectStep small_threshold large_threshold cooldown_time)
    (detectInit cooldown_time)
  (final.smalls, final.larges)

/-- Case analysis of one detector step: Large emitted, Small emitted, or the
state is unchanged. -/
lemma detectStep_cases (sm lg cd : ℚ) (s : DetectState) (r : ℚ × ℚ) :
    (lg < r.2 ∧ cd ≤ r.1 - s.lastLarge ∧
        detectStep sm lg cd s r =
          { smalls := s.smalls, larges := s.larges ++ [r],
            lastSmall := r.1, lastLarge := r.1 }) ∨
      (cd ≤ r.1 - s.lastSmall ∧ cd ≤ r.1 - s.lastLarge ∧
        detectStep sm lg cd s r =
          { smalls := s.smalls ++ [r], larges := s.larges,
            lastSmall := r.1, lastLarge := s.lastLarge }) ∨
      detectStep sm lg cd s r = s := by
  unfold detectStep
  split_ifs with h1 h2 h3 h4
  · exact Or.inl ⟨h1, h2, rfl⟩
  · exact Or.inr (Or.inr rfl)
  · exact Or.inr (Or.inl ⟨h4.1, h4.2, rfl⟩)
  · exact Or.inr (Or.inr rfl)
  · exact Or.inr (Or.inr rfl)

/-- Invariant carried through the detector fold: every recorded Large event
lies at or before the large timer; every Small event is at least a cooldown
after every earlier Large event; consecutive Large events are at least a
cooldown apart. -/
def detectInv (cd : ℚ) (s : DetectState) : Prop :=
  (∀ q ∈ s.larges, q.1 ≤ s.lastLarge) ∧
    (∀ p ∈ s.smalls, ∀ q ∈ s.larges, q.1 ≤ p.1 → cd ≤ p.1 - q.1) ∧
    List.Chain' (fun a b : ℚ × ℚ => cd ≤ b.1 - a.1) s.larges

lemma detect_fold_inv (sm lg cd : ℚ) (hcd : 0 ≤ cd) :
    ∀ (rows : List (ℚ × ℚ)) (s : DetectState),
      rows.Pairwise (fun a b : ℚ × ℚ => a.1 < b.1) →
      (∀ r ∈ rows, ∀ p ∈ s.smalls, p.1 < r.1) →
      detectInv cd s →
      detectInv cd (rows.foldl (detectStep sm lg cd) s) := by
  intro rows
  induction rows with
  | nil => intro s _ _ hInv; simpa using hInv
  | cons r rows ih =>
    intro s hpw hsm hInv
    obtain ⟨hhead, htail⟩ := List.pairwise_cons.mp hpw
    obtain ⟨h1, h2, h3⟩ := hInv
    rw [List.foldl_cons]
    rcases detectStep_cases sm lg cd s r with
      ⟨_, hcool, heq⟩ | ⟨_, hcoolL, heq⟩ | heq
    · rw [heq]
      apply ih _ htail
      · intro r' hr' p hp
        exact hsm r' (List.mem_cons_of_mem _ hr') p hp
      · refine ⟨?_, ?_, ?_⟩
        · intro q hq
          simp only [List.mem_append, List.mem_singleton] at hq
          rcases hq with hq | hqe
          · have := h1 q hq
            simp only
            linarith
          · rw [hqe]
        · intro p hp q hq hle
          simp only [List.mem_append, List.mem_singleton] at hq
          rcases hq with hq | hqe
          · exact h2 p hp q hq hle
          · rw [hqe] at hle
            exact absurd hle (not_le.mpr (hsm r (List.mem_cons_self r rows) p hp))
        · simp only
          rw [List.chain'_append]
          refine ⟨h3, List.chain'_singleton r, ?_⟩
          intro x hx y hy
          simp only [List.head?_cons, Option.mem_def, Option.some.injEq] at hy
          subst hy
          obtain ⟨hne, hxl⟩ := List.mem_getLast?_eq_getLast hx
          have hxm : x ∈ s.larges := hxl ▸ List.getLast_mem hne
          have := h1 x hxm
          linarith
    · rw [heq]
      apply ih _ htail
      · intro r' hr' p hp
        simp only [List.mem_append, List.mem_singleton] at hp
        rcases hp with hp | rfl
        · exact hsm r' (List.mem_cons_of_mem _ hr') p hp
        · exact hhead r' hr'
      · refine ⟨h1, ?_, h3⟩
        intro p hp q hq hle
        simp only [List.mem_append, List.mem_singleton] at hp
        rcases hp with hp | rfl
        · exact h2 p hp q hq hle
        · have := h1 q hq
          linarith
    · rw [heq]
      apply ih _ htail
      · intro r' hr' p hp
        exact hsm r' (List.mem_cons_of_mem _ hr') p hp
      · exact ⟨h1, h2, h3⟩

/-- C2: a Large event sets both refractory timers (src/crash_detection.py
lines 41-43), so on a time-ordered input no Small event is ever emitted within
the cooldown after an earlier Large event: every emitted Small event at time
`p.1` is at least `cooldown_time` after every Large event at time `q.1 ≤ p.1`.
Consequently a Small-range sample within the cooldown of an earlier Large
event emits no Small event. -/
theorem c2_cross_reset (sm lg cd : ℚ) (hcd : 0 ≤ cd) (rows : List (ℚ × ℚ))
    (hsorted : rows.Pairwise (fun a b : ℚ × ℚ => a.1 < b.1)) :
    ∀ p ∈ (detect_crashes sm lg cd rows).1, ∀ q ∈ (detect_crashes sm lg cd rows).2,
      q.1 ≤ p.1 → cd ≤ p.1 - q.1 := by
  have hInv := detect_fold_inv sm lg cd hcd rows (detectInit cd) hsorted
    (by intro r _ p hp; simp [detectInit] at hp)
    (by refine ⟨?_, ?_, ?_⟩ <;> simp [detectInit])
  exact fun p hp q hq hle => hInv.2.1 p hp q hq hle

/-- Witness for C2 at a concrete trace: a Large event at t = 0 followed by a
Small-range magnitude at t = 3 (outside the cooldown, so a Small event is
emitted there, 3 - 0 ≥ 2 apart). -/
theorem c2_witness :
    (0 : ℚ) ≤ COOLDOWN_TIME ∧
      ([((0 : ℚ), (300 : ℚ)), (3, 150)].Pairwise (fun a b : ℚ × ℚ => a.1 < b.1)) ∧
      COOLDOWN_TIME ≤ (3 : ℚ) - 0 :=
  ⟨by norm_num [COOLDOWN_TIME], by norm_num,
    c2_cross_reset SMALL_CRASH_THRESHOLD LARGE_CRASH_THRESHOLD COOLDOWN_TIME
      (by norm_num [COOLDOWN_TIME]) [(0, 300), (3, 150)] (by norm_num)
      (3, 150)
      (by norm_num [detect_crashes, detectStep, detectInit, SMALL_CRASH_THRESHOLD,
        LARGE_CRASH_THRESHOLD, COOLDOWN_TIME])
      (0, 300)
      (by norm_num [detect_crashes, detectStep, detectInit, SMALL_CRASH_THRESHOLD,
        LARGE_CRASH_THRESHOLD, COOLDOWN_TIME])
      (by norm_num)⟩

/-- The fold only ever appends to the Large-event list. -/
lemma detect_larges_extend (sm lg cd : ℚ) :
    ∀ (rows : List (ℚ × ℚ)) (s : DetectState),
      ∃ l, (rows.foldl (detectStep sm lg cd) s).larges = s.larges ++ l := by
  intro rows
  induction rows with
  | nil => intro s; exact ⟨[], by simp⟩
  | cons r rows ih =>
    intro s
    rw [List.foldl_cons]
    obtain ⟨l, hl⟩ := ih (detectStep sm lg cd s r)
    rcases detectStep_cases sm lg cd s r with
      ⟨_, _, heq⟩ | ⟨_, _, heq⟩ | heq
    · refine ⟨r :: l, ?_⟩
      rw [hl, heq]
      simp
    · refine ⟨l, ?_⟩
      rw [hl, heq]
    · refine ⟨l, ?_⟩
      rw [hl, heq]

/-- The large timer after the fold is either its initial value or the time of
one of the processed rows. -/
lemma detect_lastLarge_cases (sm lg cd : ℚ) :
    ∀ (rows : List (ℚ × ℚ)) (s : DetectState),
      (rows.foldl (detectStep sm lg cd) s).lastLarge = s.lastLarge ∨
        ∃ r ∈ rows, (rows.foldl (detectStep sm lg cd) s).lastLarge = r.1 := by
  intro rows
  induction rows with
  | nil => intro s; exact Or.inl rfl
  | cons r rows ih =>
    intro s
    rw [List.foldl_cons]
    rcases ih (detectStep sm lg cd s r) with h | ⟨r', hr', h⟩
    · rcases detectStep_cases sm lg cd s r with
        ⟨_, _, heq⟩ | ⟨_, _, heq⟩ | heq
      · exact Or.inr ⟨r, List.mem_cons_self r rows, by rw [h, heq]⟩
      · exact Or.inl (by rw [h, heq])
      · exact Or.inl (by rw [h, heq])
    · exact Or.inr ⟨r', List.mem_cons_of_mem _ hr', h⟩

/-- In a strictly time-ordered row list every time is at most the last one. -/
lemma pairwise_le_getLast :
    ∀ (rows : List (ℚ × ℚ)) (h : rows ≠ []),
      rows.Pairwise (fun a b : ℚ × ℚ => a.1 < b.1) →
      ∀ r ∈ rows, r.1 ≤ (rows.getLast h).1 := by
  intro rows
  induction rows with
  | nil => intro h; exact absurd rfl h
  | cons a rows ih =>
    intro _ hpw r hr
    obtain ⟨hhead, htail⟩ := List.pairwise_cons.mp hpw
    cases rows with
    | nil =>
      simp only [List.mem_singleton] at hr
      subst hr
      simp
    | cons b rows' =>
      rw [List.getLast_cons (by simp)]
      rcases List.mem_cons.mp hr with rfl | hr'
      · exact le_of_lt (hhead _ (List.getLast_mem (by simp)))
      · exact ih (by simp) htail r hr'

/-- Telescoping a cooldown-spaced chain: the list spans at least
`length * cooldown` in time. -/
lemma chain_span (cd : ℚ) :
    ∀ (l : List (ℚ × ℚ)) (x : ℚ × ℚ),
      List.Chain' (fun a b : ℚ × ℚ => cd ≤ b.1 - a.1) (x :: l) →
      (l.length : ℚ) * cd ≤ ((x :: l).getLast (List.cons_ne_nil x l)).1 - x.1 := by
  intro l
  induction l with
  | nil => intro x _; simp
  | cons y l ih =>
    intro x hch
    rw [List.chain'_cons] at hch
    have h1 := hch.1
    have h2 := ih y hch.2
    rw [List.getLast_cons (List.cons_ne_nil y l)]
    simp only [List.length_cons]
    push_cast
    push_cast at h2
    linarith

/-- C5 amended: on a strictly time-ordered series starting at a time `≥ 0`
whose magnitudes all exceed the large threshold, spanning duration `D`,
detect_crashes emits at least one and at most `floor(D / cooldown) + 1` Large
events, and consecutive Large events are at least `cooldown_time` apart.  The
original claim's exact count `floor(D/cooldown) + 1` fails when sampling is
sparse (see `c5_counterexample`): an event fires at the first sample at or
after the cooldown expiry, which may drift late and lose events. -/
theorem c5_cooldown_enforcement (sm lg cd : ℚ) (hcd : 0 < cd)
    (r0 : ℚ × ℚ) (rest : List (ℚ × ℚ)) (ht0 : 0 ≤ r0.1)
    (hsorted : (r0 :: rest).Pairwise (fun a b : ℚ × ℚ => a.1 < b.1))
    (hmag : ∀ r ∈ r0 :: rest, lg < r.2) :
    (detect_crashes sm lg cd (r0 :: rest)).2 ≠ [] ∧
      ((detect_crashes sm lg cd (r0 :: rest)).2.length : ℤ) ≤
        Int.floor ((((r0 :: rest).getLast (List.cons_ne_nil r0 rest)).1 - r0.1) / cd) + 1 ∧
      List.Chain' (fun a b : ℚ × ℚ => cd ≤ b.1 - a.1)
        (detect_crashes sm lg cd (r0 :: rest)).2 := by
  obtain ⟨hhead, htail⟩ := List.pairwise_cons.mp hsorted
  -- the first sample always fires
  have hstep0 : detectStep sm lg cd (detectInit cd) r0 =
      { smalls := [], larges := [r0], lastSmall := r0.1, lastLarge := r0.1 } := by
    unfold detectStep detectInit
    rw [if_pos (hmag r0 (List.mem_cons_self r0 rest)),
      if_pos (by simp only; linarith)]
    simp
  set s1 : DetectState :=
    { smalls := [], larges := [r0], lastSmall := r0.1, lastLarge := r0.1 } with hs1
  have hfold : (r0 :: rest).foldl (detectStep sm lg cd) (detectInit cd) =
      rest.foldl (detectStep sm lg cd) s1 := by
    rw [List.foldl_cons, hstep0]
  have hInv : detectInv cd (rest.foldl (detectStep sm lg cd) s1) := by
    apply detect_fold_inv sm lg cd (le_of_lt hcd) rest s1 htail
    · intro r _ p hp
      simp [hs1] at hp
    · refine ⟨?_, ?_, ?_⟩ <;> simp [hs1]
  obtain ⟨l, hl⟩ := detect_larges_extend sm lg cd rest s1
  have hlarges : (rest.foldl (detectStep sm lg cd) s1).larges = r0 :: l := by
    rw [hl]
    simp [hs1]
  -- bound the last large-event time by the last row time
  have hrowbound : ∀ r ∈ r0 :: rest, r.1 ≤ ((r0 :: rest).getLast (List.cons_ne_nil r0 rest)).1 :=
    pairwise_le_getLast (r0 :: rest) (List.cons_ne_nil r0 rest) hsorted
  have hlastLarge : (rest.foldl (detectStep sm lg cd) s1).lastLarge ≤
      ((r0 :: rest).getLast (List.cons_ne_nil r0 rest)).1 := by
    rcases detect_lastLarge_cases sm lg cd rest s1 with h | ⟨r', hr', h⟩
    · rw [h]
      exact hrowbound r0 (List.mem_cons_self r0 rest)
    · rw [h]
      exact hrowbound r' (List.mem_cons_of_mem _ hr')
  have hchain : List.Chain' (fun a b : ℚ × ℚ => cd ≤ b.1 - a.1) (r0 :: l) := by
    rw [← hlarges]
    exact hInv.2.2
  have hspan := chain_span cd l r0 hchain
  have hlastmem : ((r0 :: l).getLast (List.cons_ne_nil r0 l)) ∈
      (rest.foldl (detectStep sm lg cd) s1).larges := by
    rw [hlarges]
    exact List.getLast_mem (List.cons_ne_nil r0 l)
  have hlastle := hInv.1 _ hlastmem
  have hD : (l.length : ℚ) * cd ≤
      ((r0 :: rest).getLast (List.cons_ne_nil r0 rest)).1 - r0.1 := by
    have := le_trans hlastle hlastLarge
    linarith
  have hfloor : (l.length : ℤ) ≤
      Int.floor ((((r0 :: rest).getLast (List.cons_ne_nil r0 rest)).1 - r0.1) / cd) := by
    rw [Int.le_floor]
    rw [le_div_iff₀ hcd]
    push_cast
    linarith
  refine ⟨?_, ?_, ?_⟩
  · unfold detect_crashes
    rw [hfold]
    simp only [hlarges]
    exact List.cons_ne_nil r0 l
  · unfold detect_crashes
    rw [hfold]
    simp only [hlarges, List.length_cons]
    push_cast
    linarith
  · unfold detect_crashes
    rw [hfold]
    simp only [hlarges]
    exact hchain

/-- C5 counterexample: all-exceeding magnitudes at times 0, 1.9, 3.8, 5.7
with cooldown 2 span D = 5.7 > 2, so the claim demands
floor(5.7/2) + 1 = 3 Large events; the code emits only 2 (at t = 0 and
t = 3.8, because at t = 1.9 the cooldown has not expired and the next chance
is only at 3.8, after which 5.7 is again inside the cooldown). -/
theorem c5_counterexample :
    ([((0 : ℚ), (300 : ℚ)), (1.9, 300), (3.8, 300), (5.7, 300)].Pairwise
        (fun a b : ℚ × ℚ => a.1 < b.1)) ∧
      (∀ r ∈ [((0 : ℚ), (300 : ℚ)), (1.9, 300), (3.8, 300), (5.7, 300)],
        LARGE_CRASH_THRESHOLD < r.2) ∧
      COOLDOWN_TIME < (5.7 : ℚ) - 0 ∧
      (detect_crashes SMALL_CRASH_THRESHOLD LARGE_CRASH_THRESHOLD COOLDOWN_TIME
          [(0, 300), (1.9, 300), (3.8, 300), (5.7, 300)]).2.length = 2 ∧
      ((2 : ℤ) ≠ Int.floor (((5.7 : ℚ) - 0) / COOLDOWN_TIME) + 1) := by
  refine ⟨by norm_num, ?_, by norm_num [COOLDOWN_TIME], ?_, ?_⟩
  · intro r hr
    simp only [List.mem_cons, List.not_mem_nil, or_false] at hr
    rcases hr with rfl | rfl | rfl | rfl <;> norm_num [LARGE_CRASH_THRESHOLD]
  · norm_num [detect_crashes, detectStep, detectInit, SMALL_CRASH_THRESHOLD,
      LARGE_CRASH_THRESHOLD, COOLDOWN_TIME]
  · norm_num [COOLDOWN_TIME]

/-- Witness for C5 at a concrete trace: three samples exactly one cooldown
apart; all three fire, and 3 = floor(4/2) + 1 meets the bound with equality. -/
theorem c5_witness :
    (detect_crashes SMALL_CRASH_THRESHOLD LARGE_CRASH_THRESHOLD COOLDOWN_TIME
        [((0 : ℚ), (300 : ℚ)), (2, 300), (4, 300)]).2 ≠ [] ∧
      ((detect_crashes SMALL_CRASH_THRESHOLD LARGE_CRASH_THRESHOLD COOLDOWN_TIME
          [((0 : ℚ), (300 : ℚ)), (2, 300), (4, 300)]).2.length : ℤ) ≤
        Int.floor (((([((0 : ℚ), (300 : ℚ)), (2, 300), (4, 300)]).getLast
            (List.cons_ne_nil _ _)).1 - (0 : ℚ)) / COOLDOWN_TIME) + 1 ∧
      List.Chain' (fun a b : ℚ × ℚ => COOLDOWN_TIME ≤ b.1 - a.1)
        (detect_crashes SMALL_CRASH_THRESHOLD LARGE_CRASH_THRESHOLD COOLDOWN_TIME
          [((0 : ℚ), (300 : ℚ)), (2, 300), (4, 300)]).2 :=
  c5_cooldown_enforcement SMALL_CRASH_THRESHOLD LARGE_CRASH_THRESHOLD COOLDOWN_TIME
    (by norm_num [COOLDOWN_TIME]) (0, 300) [(2, 300), (4, 300)] (by norm_num)
    (by norm_num)
    (by
      intro r hr
      simp only [List.mem_cons, List.not_mem_nil, or_false] at hr
      rcases hr with rfl | rfl | rfl <;> norm_num [LARGE_CRASH_THRESHOLD])

/-- C10: a sample whose magnitude exceeds the large threshold but which falls
inside the cooldown window of the last Large event changes nothing: removing
it from the trace gives the identical output, so it emits neither a Large nor
a Small event (the `elif` at src/crash_detection.py line 44 is never reached
for large-magnitude samples). -/
theorem c10_large_within_cooldown_suppressed (sm lg cd : ℚ)
    (xs ys : List (ℚ × ℚ)) (t m : ℚ) (hm : lg < m)
    (hcool : t - (xs.foldl (detectStep sm lg cd) (detectInit cd)).lastLarge < cd) :
    detect_crashes sm lg cd (xs ++ (t, m) :: ys) = detect_crashes sm lg cd (xs ++ ys) := by
  unfold detect_crashes
  rw [List.foldl_append, List.foldl_append, List.foldl_cons]
  set s := xs.foldl (detectStep sm lg cd) (detectInit cd) with hs
  have hstep : detectStep sm lg cd s (t, m) = s := by
    unfold detectStep
    rw [if_pos hm, if_neg (not_le.mpr (by simp only; linarith))]
  rw [hstep]

/-! ## Movement filter (src/mass_estimation.py lines 59-76) -/

/-- pandas `mask.shift(1, fill_value=False)`: values move one position later,
the first becomes False. -/
def shiftDown (m : List Bool) : List Bool :=
  (false :: m).take m.length

/-- pandas `mask.shift(-1, fill_value=False)`: values move one position
earlier, the last becomes False. -/
def shiftUp (m : List Bool) : List Bool :=
  (m ++ [false]).drop 1

/-- Pointwise boolean `|` of two aligned series. -/
def orMask (a b : List Bool) : List Bool :=
  List.zipWith or a b

/-- The retention mask `moving_mask | (moving_mask.shift(1) | moving_mask.shift(-1))`
of filter_moving_periods (lines 75-76). -/
def widenMask (m : List Bool) : List Bool :=
  orMask m (orMask (shiftDown m) (shiftUp m))

/-- Row selection `df[mask]`: keep the rows whose mask entry is true. -/
def filterByMask {α : Type} (xs : List α) (mask : List Bool) : List α :=
  (xs.zip mask).filterMap (fun p => if p.2 then some p.1 else none)

lemma length_shiftDown (m : List Bool) : (shiftDown m).length = m.length := by
  simp [shiftDown]

lemma length_shiftUp (m : List Bool) : (shiftUp m).length = m.length := by
  simp [shiftUp]

lemma getElem?_zipWith_or :
    ∀ (a b : List Bool) (i : ℕ), (List.zipWith or a b)[i]? =
      match a[i]?, b[i]? with
      | some x, some y => some (x || y)
      | _, _ => none := by
  intro a
  induction a with
  | nil => intro b i; simp
  | cons x a ih =>
    intro b i
    cases b with
    | nil => simp
    | cons y b =>
      cases i with
      | zero => simp
      | succ i => simpa using ih b i

lemma getElem?_shiftDown (m : List Bool) (i : ℕ) (hi : i < m.length) :
    (shiftDown m)[i]? = some (if i = 0 then false else m.getD (i - 1) false) := by
  unfold shiftDown
  rw [List.getElem?_take_of_lt hi]
  cases i with
  | zero => simp
  | succ j =>
    simp only [List.getElem?_cons_succ, Nat.succ_sub_one, if_neg (Nat.succ_ne_zero j)]
    rw [List.getD_eq_getElem?_getD, List.getElem?_eq_getElem (by omega)]
    simp

lemma getElem?_shiftUp (m : List Bool) (i : ℕ) (hi : i < m.length) :
    (shiftUp m)[i]? = some (m.getD (i + 1) false) := by
  unfold shiftUp
  rw [List.getElem?_drop, Nat.add_comm 1 i]
  rcases lt_or_eq_of_le (Nat.succ_le_of_lt hi) with h | h
  · rw [List.getElem?_append, if_pos (by omega)]
    rw [List.getD_eq_getElem?_getD, List.getElem?_eq_getElem (show i + 1 < m.length by omega)]
    simp
  · rw [List.getElem?_append_right (by omega)]
    have h1 : i + 1 - m.length = 0 := by omega
    rw [h1, List.getD_eq_getElem?_getD, List.getElem?_eq_none (l := m) (by omega)]
    simp

/-- C9: a sample is retained by the widened movement mask exactly when it is
itself marked moving, or its immediate predecessor is, or its immediate
successor is (src/mass_estimation.py lines 74-76). -/
theorem c9_mask_widening (m : List Bool) (i : ℕ) (hi : i < m.length) :
    (widenMask m).getD i false =
      (m.getD i false || (decide (1 ≤ i) && m.getD (i - 1) false) ||
        m.getD (i + 1) false) := by
  have hm : m[i]? = some (m.getD i false) := by
    rw [List.getD_eq_getElem?_getD, List.getElem?_eq_getElem hi]
    simp
  have hsd : (shiftDown m)[i]? = some (if i = 0 then false else m.getD (i - 1) false) :=
    getElem?_shiftDown m i hi
  have hsu : (shiftUp m)[i]? = some (m.getD (i + 1) false) :=
    getElem?_shiftUp m i hi
  unfold widenMask orMask
  rw [List.getD_eq_getElem?_getD, getElem?_zipWith_or, hm, getElem?_zipWith_or, hsd, hsu]
  cases i with
  | zero => simp
  | succ j =>
    simp only [if_neg (Nat.succ_ne_zero j), Option.getD_some]
    have : decide (1 ≤ j + 1) = true := by simp
    rw [this]
    cases m.getD (j + 1) false <;> cases m.getD j false <;>
      cases m.getD (j + 2) false <;> rfl

/-- Witness for C9: in the mask FTFF, position 2 is retained exactly because
its predecessor (position 1) is marked moving. -/
theorem c9_witness :
    (2 < [false, true, false, false].length) ∧
      (widenMask [false, true, false, false]).getD 2 false =
        ([false, true, false, false].getD 2 false ||
          (decide (1 ≤ 2) && [false, true, false, false].getD (2 - 1) false) ||
          [false, true, false, false].getD (2 + 1) false) :=
  ⟨by decide, c9_mask_widening [false, true, false, false] 2 (by decide)⟩

/-- Witness for C10 at a concrete trace: a Large event fires at t = 0; the
over-threshold sample at t = 1 (inside the 2 s cooldown) is dropped without a
trace. -/
theorem c10_witness :
    detect_crashes SMALL_CRASH_THRESHOLD LARGE_CRASH_THRESHOLD COOLDOWN_TIME
        ([((0 : ℚ), (300 : ℚ))] ++ (1, 300) :: [(4, 300)]) =
      detect_crashes SMALL_CRASH_THRESHOLD LARGE_CRASH_THRESHOLD COOLDOWN_TIME
        ([((0 : ℚ), (300 : ℚ))] ++ [(4, 300)]) :=
  c10_large_within_cooldown_suppressed SMALL_CRASH_THRESHOLD LARGE_CRASH_THRESHOLD
    COOLDOWN_TIME [(0, 300)] [(4, 300)] 1 300
    (by norm_num [LARGE_CRASH_THRESHOLD])
    (by norm_num [detectStep, detectInit, SMALL_CRASH_THRESHOLD,
      LARGE_CRASH_THRESHOLD, COOLDOWN_TIME])

/-! ## Mass estimation pipeline (src/mass_estimation.py lines 52-119)

A sample carries the columns estimate_mass reads: time, roll, pitch (degrees)
and the precomputed normalized-acceleration magnitude (the pipeline computes
`sqrt(x_norm^2+y_norm^2+z_norm^2)` upstream; spec section 4.5 step 2).  A data
frame optionally carries a Speed column (line 65 tests column presence). -/

structure Sample where
  time : ℚ
  roll : ℚ
  pitch : ℚ
  accelMag : ℚ
deriving DecidableEq

structure DataFrame where
  samples : List Sample
  speedCol : Option (List ℚ)
deriving DecidableEq

/-- The raw movement mask (lines 65-72): speed threshold when the Speed
column exists, else a 0.1 m/s² floor on the acceleration magnitude. -/
def movingMaskOf (df : DataFrame) : List Bool :=
  match df.speedCol with
  | some speeds => speeds.map (fun v => decide ( MIN_MOVING_SPEED < v))
  | none => df.samples.map (fun s => decide ((0.1 : ℚ) < s.accelMag))

/-- filter_moving_periods (lines 59-76): widen the mask by one sample in each
direction via the two shifts, then keep the masked rows. -/
def filter_moving_periods (df : DataFrame) : List Sample :=
  filterByMask df.samples (widenMask (movingMaskOf df))

/-- pandas `series.rolling(window=k, center=True).mean()` used by the
degenerate branch of smooth_data (line 56): the window at position `i` covers
`[i - (k-1)/2, i + k/2]`; positions whose window leaves the series are NaN
(`min_periods` defaults to the window size). -/
def rolling_center_mean (k : ℕ) (xs : List ℚ) : List (Option ℚ) :=
  (List.range xs.length).map (fun i =>
    if (k - 1) / 2 ≤ i ∧ i + k / 2 < xs.length then
      some (((xs.drop (i - (k - 1) / 2)).take k).sum / (k : ℚ))
    else none)

/-- smooth_data (lines 52-57).  `scipy.signal.savgol_filter` is an external
library routine (a degree-2 local polynomial regression, spec section 4.3);
it is a parameter here, assumed length-preserving where a claim needs it.
`none` models a NaN produced by the short-series rolling mean. -/
def smooth_data (savgol : List ℚ → ℕ → List ℚ) (series : List ℚ)
    (window_size : ℕ) : List (Option ℚ) :=
  if series.length < window_size then rolling_center_mean (min 3 series.length) series
  else (savgol series window_size).map some

/-- The two failure conditions of estimate_mass (lines 83-84 and 105-106). -/
inductive MassError where
  | noMovingPeriods : MassError
  | noValidAcceleration : MassError
deriving DecidableEq

/-- The user-facing messages of the two ValueError raises. -/
def MassError.message : MassError → String
  | MassError.noMovingPeriods => "No moving periods detected - check your data"
  | MassError.noValidAcceleration => "No valid acceleration events - try lower MIN_ACCELERATION"

/-- A row of the returned df_accelerating frame; the real-valued derived
columns (incline angle, mass estimate) are functions of these fields, defined
below. -/
structure MassRecord where
  time : ℚ
  roll : ℚ
  pitch : ℚ
  accelSmoothed : ℚ
deriving DecidableEq

/-- estimate_mass (lines 78-119): movement filter, time-aware window,
smoothing, restriction to smoothed acceleration above `MIN_ACCELERATION`,
with the two distinct failure conditions.  A NaN smoothed value (`none`)
fails the `> MIN_ACCELERATION` comparison, as NaN comparisons do in pandas. -/
def estimate_mass (savgol : List ℚ → ℕ → List ℚ) (df : DataFrame) :
    Except MassError (List MassRecord × ℕ) :=
  let df_moving := filter_moving_periods df
  if df_moving = [] then Except.error MassError.noMovingPeriods
  else
    let window_size := calculate_time_aware_window (df_moving.map Sample.time)
    let smoothed := smooth_data savgol (df_moving.map Sample.accelMag) window_size
    let df_accelerating := (df_moving.zip smoothed).filter
      (fun p => match p.2 with
        | some a => decide ( MIN_ACCELERATION < a)
        | none => false)
    if df_accelerating = [] then Except.error MassError.noValidAcceleration
    else
      Except.ok
        (df_accelerating.map (fun p =>
          { time := p.1.time, roll := p.1.roll, pitch := p.1.pitch,
            accelSmoothed := p.2.getD 0 }), window_size)

/-- Whether an Except value is an error. -/
def exceptIsError {ε α : Type} : Except ε α → Bool
  | Except.error _ => true
  | Except.ok _ => false

lemma length_rolling_center_mean (k : ℕ) (xs : List ℚ) :
    (rolling_center_mean k xs).length = xs.length := by
  simp [rolling_center_mean]

lemma length_smooth_data (savgol : List ℚ → ℕ → List ℚ)
    (hlen : ∀ xs w, (savgol xs w).length = xs.length) (series : List ℚ) (w : ℕ) :
    (smooth_data savgol series w).length = series.length := by
  unfold smooth_data
  split_ifs
  · exact length_rolling_center_mean _ _
  · simp [hlen]

lemma zip_forall_snd {α β : Type} (P : β → Prop) :
    ∀ (a : List α) (b : List β), a.length = b.length →
      ((∀ p ∈ a.zip b, P p.2) ↔ ∀ o ∈ b, P o) := by
  intro a
  induction a with
  | nil =>
    intro b hb
    cases b with
    | nil => simp
    | cons y ys => simp at hb
  | cons x xs ih =>
    intro b hb
    cases b with
    | nil => simp at hb
    | cons y ys =>
      simp only [List.zip_cons_cons, List.mem_cons, forall_eq_or_imp]
      rw [ih ys (by simpa using hb)]

/-- C6: estimate_mass fails exactly when the movement filter keeps no sample
or no smoothed acceleration value exceeds `MIN_ACCELERATION`; the two
failures are the two distinct constructors of `MassError`, with distinct
messages — never a zero or undefined normal return.  The smoother parameter
is only assumed length-preserving (true of scipy's savgol_filter). -/
theorem c6_error_conditions (savgol : List ℚ → ℕ → List ℚ)
    (hlen : ∀ xs w, (savgol xs w).length = xs.length) (df : DataFrame) :
    (exceptIsError (estimate_mass savgol df) = true ↔
        filter_moving_periods df = [] ∨
          ∀ o ∈ smooth_data savgol ((filter_moving_periods df).map Sample.accelMag)
              (calculate_time_aware_window ((filter_moving_periods df).map Sample.time)),
            ∀ a, o = some a → a ≤ MIN_ACCELERATION) ∧
      (filter_moving_periods df = [] →
        estimate_mass savgol df = Except.error MassError.noMovingPeriods) ∧
      (filter_moving_periods df ≠ [] → exceptIsError (estimate_mass savgol df) = true →
        estimate_mass savgol df = Except.error MassError.noValidAcceleration) ∧
      MassError.noMovingPeriods.message ≠ MassError.noValidAcceleration.message := by
  have hmsg : MassError.noMovingPeriods.message ≠ MassError.noValidAcceleration.message := by
    simp [MassError.message]
  by_cases hmv : filter_moving_periods df = []
  · refine ⟨?_, fun _ => ?_, fun h => absurd hmv h, hmsg⟩
    · simp [estimate_mass, hmv, exceptIsError]
    · simp [estimate_mass, hmv]
  · have hzip :
        ((filter_moving_periods df).zip
            (smooth_data savgol ((filter_moving_periods df).map Sample.accelMag)
              (calculate_time_aware_window
                ((filter_moving_periods df).map Sample.time)))).filter
          (fun p => match p.2 with
            | some a => decide ( MIN_ACCELERATION < a)
            | none => false) = [] ↔
          ∀ o ∈ smooth_data savgol ((filter_moving_periods df).map Sample.accelMag)
              (calculate_time_aware_window ((filter_moving_periods df).map Sample.time)),
            ∀ a, o = some a → a ≤ MIN_ACCELERATION := by
      rw [List.filter_eq_nil_iff]
      have hlens : (filter_moving_periods df).length =
          (smooth_data savgol ((filter_moving_periods df).map Sample.accelMag)
            (calculate_time_aware_window
              ((filter_moving_periods df).map Sample.time))).length := by
        rw [length_smooth_data savgol hlen]
        simp
      rw [← zip_forall_snd
        (fun o => ∀ a, o = some a → a ≤ MIN_ACCELERATION) _ _ hlens]
      constructor
      · intro h p hp a ha
        have := h p hp
        rw [ha] at this
        simpa using this
      · intro h p hp
        cases hp2 : p.2 with
        | none => simp
        | some a =>
          have := h p hp a hp2
          simpa using this
    by_cases hacc :
        ((filter_moving_periods df).zip
            (smooth_data savgol ((filter_moving_periods df).map Sample.accelMag)
              (calculate_time_aware_window
                ((filter_moving_periods df).map Sample.time)))).filter
          (fun p => match p.2 with
            | some a => decide ( MIN_ACCELERATION < a)
            | none => false) = []
    · refine ⟨?_, fun h => absurd h hmv, fun _ _ => ?_, hmsg⟩
      · rw [iff_true_right (Or.inr (hzip.mp hacc))]
        simp [estimate_mass, hmv, hacc, exceptIsError]
      · simp [estimate_mass, hmv, hacc]
    · refine ⟨?_, fun h => absurd h hmv, fun _ hc => ?_, hmsg⟩
      · simp only [estimate_mass, if_neg hmv, if_neg hacc]
        simp only [exceptIsError, Bool.false_eq_true, false_iff]
        intro hor
        rcases hor with h | h
        · exact hmv h
        · exact hacc (hzip.mpr h)
      · exfalso
        simp [estimate_mass, hmv, hacc, exceptIsError] at hc

/-- The identity smoother, a length-preserving instance for the C6 witness. -/
def idSmooth : List ℚ → ℕ → List ℚ := fun xs _ => xs

/-- A one-sample frame without a Speed column whose sample is moving. -/
def dfEx : DataFrame :=
  { samples := [{ time := 0, roll := 0, pitch := 0, accelMag := 1 }], speedCol := none }

/-- Witness for C6 at the identity smoother and a concrete one-sample frame. -/
theorem c6_witness :
    (exceptIsError (estimate_mass idSmooth dfEx) = true ↔
        filter_moving_periods dfEx = [] ∨
          ∀ o ∈ smooth_data idSmooth ((filter_moving_periods dfEx).map Sample.accelMag)
              (calculate_time_aware_window ((filter_moving_periods dfEx).map Sample.time)),
            ∀ a, o = some a → a ≤ MIN_ACCELERATION) ∧
      (filter_moving_periods dfEx = [] →
        estimate_mass idSmooth dfEx = Except.error MassError.noMovingPeriods) ∧
      (filter_moving_periods dfEx ≠ [] → exceptIsError (estimate_mass idSmooth dfEx) = true →
        estimate_mass idSmooth dfEx = Except.error MassError.noValidAcceleration) ∧
      MassError.noMovingPeriods.message ≠ MassError.noValidAcceleration.message :=
  c6_error_conditions idSmooth (fun _ _ => rfl) dfEx

/-! ## Physics of the mass model (src/mass_estimation.py lines 91-113) -/

/-- np.radians: degrees to radians. -/
noncomputable def radians (deg : ℝ) : ℝ := deg * Real.pi / 180

/-- Wheel radius as hard-coded in the factor `1.04 + 0.0025*(7.6**2)` on line
113; the spec treats it as the configuration value `wheel_radius`. -/
def WHEEL_RADIUS : ℚ := 7.6

/-- incline_angle (line 93): `arctan(sqrt(tan(roll)^2 + tan(pitch)^2))`, the
angles first converted from degrees to radians (lines 91-92). -/
noncomputable def incline_angle (roll pitch : ℚ) : ℝ :=
  Real.arctan (Real.sqrt (Real.tan (radians (roll : ℝ)) ^ 2 +
    Real.tan (radians (pitch : ℝ)) ^ 2))

/-- The mass_estimate column (lines 109-113):
`MOTOR_FORCE / (accel_smoothed + C_rr*g + g*sin(incline)) * (1.04 + 0.0025*wheel_radius^2)`. -/
noncomputable def mass_estimate (r : MassRecord) : ℝ :=
  (MOTOR_FORCE : ℝ) /
      ((r.accelSmoothed : ℝ) + (ROLLING_RESISTANCE_COEFFICIENT : ℝ) * (GRAVITY : ℝ) +
        (GRAVITY : ℝ) * Real.sin (incline_angle r.roll r.pitch)) *
    ((1.04 : ℝ) + 0.0025 * ((WHEEL_RADIUS : ℚ) : ℝ) ^ 2)

/-- C7: with zero smoothed acceleration and zero incline angle, the mass
estimate is exactly `MOTOR_FORCE / (ROLLING_RESISTANCE_COEFFICIENT * GRAVITY)`
times the equivalent-mass factor `1.04 + 0.0025 * wheel_radius^2`. -/
theorem c7_mass_model_sanity (r : MassRecord) (h1 : r.accelSmoothed = 0)
    (h2 : incline_angle r.roll r.pitch = 0) :
    mass_estimate r =
      (MOTOR_FORCE : ℝ) / ((ROLLING_RESISTANCE_COEFFICIENT : ℝ) * (GRAVITY : ℝ)) *
        ((1.04 : ℝ) + 0.0025 * ((WHEEL_RADIUS : ℚ) : ℝ) ^ 2) := by
  unfold mass_estimate
  rw [h1, h2, Real.sin_zero]
  norm_num

/-- Witness for C7 at the all-zero record (roll = pitch = 0 makes the incline
angle zero). -/
theorem c7_witness :
    mass_estimate { time := 0, roll := 0, pitch := 0, accelSmoothed := 0 } =
      (MOTOR_FORCE : ℝ) / ((ROLLING_RESISTANCE_COEFFICIENT : ℝ) * (GRAVITY : ℝ)) *
        ((1.04 : ℝ) + 0.0025 * ((WHEEL_RADIUS : ℚ) : ℝ) ^ 2) :=
  c7_mass_model_sanity { time := 0, roll := 0, pitch := 0, accelSmoothed := 0 } rfl
    (by simp [incline_angle, radians])

/-! ## Expanding standard deviation (src/mass_estimation.py line 117) -/

/-- pandas `series.expanding().std()`: at position `k` the sample standard
deviation (ddof = 1) of the first `k+1` values; a single observation has no
sample standard deviation, so position 0 is NaN (`none`). -/
noncomputable def expanding_std (xs : List ℝ) : List (Option ℝ) :=
  (List.range xs.length).map (fun k =>
    let pre := xs.take (k + 1)
    if pre.length < 2 then none
    else some (Real.sqrt
      ((pre.map (fun x => (x - pre.sum / (pre.length : ℝ)) ^ 2)).sum /
        ((pre.length : ℝ) - 1))))

/-- C4 amended: over a constant mass_estimate series the recorded
cumulative_std is zero at every position except the first, which is undefined
(NaN) because the sample standard deviation of one observation does not
exist (pandas ddof = 1).  The original claim's "including the first" fails:
see `c4_counterexample`. -/
theorem c4_constant_std (xs : List ℝ) (c : ℝ) (hconst : ∀ x ∈ xs, x = c)
    (i : ℕ) (hi : i < xs.length) :
    (expanding_std xs)[i]? = some (if i = 0 then none else some 0) := by
  unfold expanding_std
  rw [List.getElem?_map, List.getElem?_range hi]
  simp only [Option.map_some']
  have hlen : (xs.take (i + 1)).length = i + 1 := by
    rw [List.length_take]
    omega
  cases i with
  | zero =>
    rw [if_pos (by rw [hlen]; omega), if_pos rfl]
  | succ j =>
    rw [if_neg (by rw [hlen]; omega), if_neg (Nat.succ_ne_zero j)]
    have hpre : ∀ x ∈ xs.take (j + 1 + 1), x = c :=
      fun x hx => hconst x (List.take_subset _ _ hx)
    have hsum : (xs.take (j + 1 + 1)).sum = ((xs.take (j + 1 + 1)).length : ℝ) * c := by
      rw [List.sum_eq_card_nsmul _ c hpre, nsmul_eq_mul]
    have hmean : (xs.take (j + 1 + 1)).sum / ((xs.take (j + 1 + 1)).length : ℝ) = c := by
      have hne : ((xs.take (j + 1 + 1)).length : ℝ) ≠ 0 := by rw [hlen]; positivity
      rw [hsum, mul_div_cancel_left₀ _ hne]
    have hzero : ∀ y ∈ (xs.take (j + 1 + 1)).map
        (fun x => (x - (xs.take (j + 1 + 1)).sum / ((xs.take (j + 1 + 1)).length : ℝ)) ^ 2),
        y = 0 := by
      intro y hy
      obtain ⟨x, hx, rfl⟩ := List.mem_map.mp hy
      rw [hmean, hpre x hx, sub_self]
      ring
    have hsz : ((xs.take (j + 1 + 1)).map
        (fun x => (x - (xs.take (j + 1 + 1)).sum / ((xs.take (j + 1 + 1)).length : ℝ)) ^ 2)).sum
        = 0 := by
      rw [List.sum_eq_card_nsmul _ 0 hzero, smul_zero]
    rw [hsz, zero_div, Real.sqrt_zero]

/-- C4 counterexample: on the constant series [100, 100] the first
cumulative_std entry is NaN (`none`), not zero, refuting "zero at every
position, including the first". -/
theorem c4_counterexample :
    (expanding_std [(100 : ℝ), 100])[0]? ≠ some (some 0) := by
  have h : (expanding_std [(100 : ℝ), 100])[0]? = some none := by
    unfold expanding_std
    rw [List.getElem?_map, List.getElem?_range (by norm_num)]
    simp
  rw [h]
  simp

/-- Witness for C4 on the constant series [100, 100] at position 1. -/
theorem c4_witness :
    (∀ x ∈ [(100 : ℝ), 100], x = 100) ∧
      (expanding_std [(100 : ℝ), 100])[1]? = some (some 0) :=
  ⟨by simp, by
    have h := c4_constant_std [(100 : ℝ), 100] 100 (by simp) 1 (by norm_num)
    simpa using h⟩

/-! ## Orientation normalization (src/crash_detection.py lines 13-30) -/

/-- Rotation about the x-axis by `a` radians (line 21). -/
noncomputable def R_x (a : ℝ) : Matrix (Fin 3) (Fin 3) ℝ :=
  Matrix.of ![![1, 0, 0], ![0, Real.cos a, -Real.sin a], ![0, Real.sin a, Real.cos a]]

/-- Rotation about the y-axis by `a` radians (line 22). -/
noncomputable def R_y (a : ℝ) : Matrix (Fin 3) (Fin 3) ℝ :=
  Matrix.of ![![Real.cos a, 0, Real.sin a], ![0, 1, 0], ![-Real.sin a, 0, Real.cos a]]

/-- Rotation about the z-axis by `a` radians (line 23). -/
noncomputable def R_z (a : ℝ) : Matrix (Fin 3) (Fin 3) ℝ :=
  Matrix.of ![![Real.cos a, -Real.sin a, 0], ![Real.sin a, Real.cos a, 0], ![0, 0, 1]]

/-- The global gravity vector `(0, 0, 9.81)` (line 19). -/
noncomputable def gravity_global : Fin 3 → ℝ := ![0, 0, 9.81]

/-- normalize_acceleration for one sample (lines 20-28): build
`R = R_z(yaw) * R_y(pitch) * R_x(roll)` from the degree angles converted to
radians, resolve gravity into the body frame via `R^T`, and subtract it from
the measured body-frame acceleration. -/
noncomputable def normalize_acceleration (roll pitch yaw : ℚ) (accel : Fin 3 → ℝ) :
    Fin 3 → ℝ :=
  let R := R_z (radians (yaw : ℝ)) * R_y (radians (pitch : ℝ)) * R_x (radians (roll : ℝ))
  accel - R.transpose.mulVec gravity_global

/-- C8: at zero orientation with raw acceleration `(0, 0, 9.81)` the
normalized acceleration is exactly `(0, 0, 0)`. -/
theorem c8_gravity_removal :
    normalize_acceleration 0 0 0 ![0, 0, (9.81 : ℝ)] = ![0, 0, 0] := by
  funext i
  fin_cases i <;>
    simp [normalize_acceleration, R_x, R_y, R_z, radians, gravity_global,
      Matrix.mulVec, Matrix.dotProduct, Matrix.mul_apply, Fin.sum_univ_three,
      Matrix.transpose_apply, Matrix.cons_val_zero, Matrix.cons_val_one,
      Matrix.head_cons, Matrix.cons_val_two, Matrix.tail_cons, Matrix.head_fin_const,
      Matrix.vecHead, Matrix.vecTail, Function.comp]

end EAV
